import Mathlib

/-!
Shallow embedding of the Corpus Resolution & Session Cache core of the
adk-rag-agent repository (src/tools/utils.ts, src/tools/rag_query.ts,
src/config.ts), together with theorems settling the specification claims.

Modelling conventions:
* JavaScript strings are Lean `String`s (a character list); `indexOf`,
  `split('/')`, `trim`, `toLowerCase` are embedded by executable functions
  below.
* `process.env` configuration (`PROJECT_ID`, `LOCATION`) is a `Config`
  record passed explicitly; an unset / empty variable is the empty string
  (both are falsy in JS).
* The async registry call `client.listRagCorpora` is a `RegistryOutcome`
  parameter: either the listing it resolved to, or `failure` when it threw.
  Each embedded operation also returns the number of listing calls it
  performed, so "no registry call" is a provable statement.
* `ToolContext.state` is an association list `SessionState`; `get` returns
  the first binding, `set` shadows.  JS truthiness of retrieved values is
  `truthyOpt`.
-/

/-- A JavaScript value stored in the session state: the core stores booleans
(`corpus_exists_<id>` flags) and strings (`current_corpus`). -/
inductive JSVal where
  | vBool : Bool → JSVal
  | vStr : String → JSVal
deriving DecidableEq, Repr

/-- JS truthiness of a stored value: `false` and the empty string are falsy. -/
def JSVal.truthy : JSVal → Bool
  | .vBool b => b
  | .vStr s => !s.isEmpty

/-- The session-scoped key-value store (`ToolContext.state`). -/
abbrev SessionState := List (String × JSVal)

/-- Embeds `state.get(k)`: first binding for the key, if any. -/
def stateGet (st : SessionState) (k : String) : Option JSVal :=
  match st with
  | [] => none
  | (k', v) :: t => if k' = k then some v else stateGet t k

/-- Embeds `state.set(k, v)`: the new binding shadows any previous one. -/
def stateSet (st : SessionState) (k : String) (v : JSVal) : SessionState :=
  (k, v) :: st

/-- JS truthiness of the result of `state.get(k)`: `undefined` is falsy. -/
def truthyOpt : Option JSVal → Bool
  | none => false
  | some v => v.truthy

/-- Embeds `state.get(k)` read at a position typed `string | undefined` in the
source (`const stateCorpus: string | undefined = state?.get?.('current_corpus')`). -/
def stateGetStr (st : SessionState) (k : String) : Option String :=
  match stateGet st k with
  | some (.vStr s) => some s
  | _ => none

/-- The process-wide configuration of src/config.ts: `PROJECT_ID` and
`LOCATION` from the environment; unset is modelled as the empty string. -/
structure Config where
  PROJECT_ID : String
  LOCATION : String
deriving DecidableEq, Repr

/-- A corpus entry returned by `listRagCorpora`: proto fields `name` and
`displayName` are nullable strings. -/
structure CorpusRecord where
  name : Option String
  displayName : Option String
deriving DecidableEq, Repr

/-- Outcome of the awaited `client.listRagCorpora({parent})` call: the listing,
or `failure` when the promise rejected (the `catch` path in the source). -/
inductive RegistryOutcome where
  | failure : RegistryOutcome
  | listing : List CorpusRecord → RegistryOutcome
deriving DecidableEq, Repr

/-- Embeds JavaScript `s.split('/')` on character lists: `[[]]` on the empty
string, and an empty final segment when the string ends with `'/'`. -/
def splitSlash : List Char → List (List Char)
  | [] => [[]]
  | c :: t =>
    if c = '/' then [] :: splitSlash t
    else
      match splitSlash t with
      | [] => [[c]]
      | h :: r => (c :: h) :: r

/-- Embeds JavaScript `s.toLowerCase()` (ASCII case mapping, character by
character). -/
def jsToLower (s : String) : String :=
  String.mk (s.data.map Char.toLower)

/-- Embeds JavaScript `s.trim()`: strip leading and trailing whitespace. -/
def jsTrim (s : String) : String :=
  String.mk (((s.data.dropWhile Char.isWhitespace).reverse.dropWhile
    Char.isWhitespace).reverse)

/-- Embeds the idiom `s.split('/').pop() || s`: the last `'/'`-separated
segment, falling back to the whole string when that segment is empty. -/
def jsSplitPop (s : String) : String :=
  match (splitSlash s.data).getLast? with
  | none => s
  | some seg => if seg = [] then s else String.mk seg

/-- A character allowed by the regex class `[a-zA-Z0-9_-]`. -/
def isAllowedChar (c : Char) : Bool :=
  ('a' ≤ c && c ≤ 'z') || ('A' ≤ c && c ≤ 'Z') || ('0' ≤ c && c ≤ '9') ||
    c = '_' || c = '-'

/-- One step of `replace(/[^a-zA-Z0-9_-]/g, '_')`. -/
def cleanChar (c : Char) : Char :=
  if isAllowedChar c then c else '_'

/-- Embeds the anchored regex test
`corpusName.match(/^projects\/[^\/]+\/locations\/[^\/]+\/ragCorpora\/[^\/]+$/)`:
exactly six `'/'`-separated segments, the literal ones in place and the
variable ones non-empty. -/
def matchesResourceNamePattern (s : String) : Bool :=
  match splitSlash s.data with
  | [p0, p1, p2, p3, p4, p5] =>
    p0 == "projects".data && !p1.isEmpty && p2 == "locations".data &&
      !p3.isEmpty && p4 == "ragCorpora".data && !p5.isEmpty
  | _ => false

/-- Embeds `getCorpusResourceName` of src/tools/utils.ts: full resource names
pass through; otherwise the trailing path segment is cleaned to
`[a-zA-Z0-9_-]` and spliced into the structured pattern. -/
def getCorpusResourceName (cfg : Config) (corpusName : String) : String :=
  if matchesResourceNamePattern corpusName then corpusName
  else
    let corpusId := jsSplitPop corpusName
    let cleanId := String.mk (corpusId.data.map cleanChar)
    "projects/" ++ cfg.PROJECT_ID ++ "/locations/" ++ cfg.LOCATION ++
      "/ragCorpora/" ++ cleanId

/-- Embeds JavaScript `hay.indexOf(needle)` on character lists, as an
`Option Nat` (`none` for `-1`). -/
def idxAux (needle : List Char) : List Char → Option Nat
  | [] => if needle.isPrefixOf [] then some 0 else none
  | c :: t =>
    if needle.isPrefixOf (c :: t) then some 0
    else (idxAux needle t).map (· + 1)

/-- `hay.indexOf(needle)` on strings. -/
def jsIndexOf (hay needle : String) : Option Nat :=
  idxAux needle.data hay.data

/-- The result shape `{ resourceName, displayName? }` returned by both
resolution operations. -/
structure MatchResult where
  resourceName : String
  displayName : Option String
deriving DecidableEq, Repr

/-- Embeds the object literal `{ resourceName, displayName: displayName || undefined }`
built at a fuzzy match. -/
def mkMatchResult (resourceName displayName : String) : MatchResult :=
  { resourceName := resourceName
    displayName := if displayName.isEmpty then none else some displayName }

/-- Embeds `score > bestScore` where `bestScore` starts at `-Infinity`
(`none`). -/
def scoreGt (score : Int) : Option Int → Bool
  | none => true
  | some b => decide (b < score)

/-- One iteration of the inner `for (const candidate of candidates)` loop of
`findBestMatchingCorpus`: the accumulator is the pair of the mutable
`bestScore` (`none` = `-Infinity`) and `bestMatch` variables. -/
def considerCandidate (normalizedQuery resourceName displayName : String)
    (acc : Option Int × Option MatchResult) (cand : String × Int) :
    Option Int × Option MatchResult :=
  match jsIndexOf (jsToLower cand.1) normalizedQuery with
  | none => acc
  | some index =>
    let score : Int := (normalizedQuery.length : Int) * 100 + cand.2 - (index : Int)
    if scoreGt score acc.1 then
      (some score, some (mkMatchResult resourceName displayName))
    else acc

/-- One iteration of the outer `for (const corpus of corpora)` loop of
`findBestMatchingCorpus`: builds the three weighted candidates and folds the
inner loop over them. -/
def considerCorpus (normalizedQuery : String)
    (acc : Option Int × Option MatchResult) (c : CorpusRecord) :
    Option Int × Option MatchResult :=
  let resourceName := c.name.getD ""
  let displayName := c.displayName.getD ""
  let resourceId := jsSplitPop resourceName
  [(displayName, (30 : Int)), (resourceId, 20), (resourceName, 10)].foldl
    (considerCandidate normalizedQuery resourceName displayName) acc

/-- Embeds `findBestMatchingCorpus` of src/tools/utils.ts.  The second
component counts the `listRagCorpora` calls performed. -/
def findBestMatchingCorpus (cfg : Config) (corpusName : String)
    (registry : RegistryOutcome) : Option MatchResult × Nat :=
  let normalizedQuery := jsToLower (jsTrim corpusName)
  if normalizedQuery.isEmpty then (none, 0)
  else if cfg.PROJECT_ID.isEmpty || cfg.LOCATION.isEmpty then (none, 0)
  else
    match registry with
    | .failure => (none, 1)
    | .listing corpora =>
      ((corpora.foldl (considerCorpus normalizedQuery) (none, none)).2, 1)

/-- Result of `checkCorpusExists`: the boolean answer, the session state after
the call, and the number of `listRagCorpora` calls performed. -/
structure CheckResult where
  result : Bool
  state : SessionState
  calls : Nat
deriving DecidableEq, Repr

/-- The match condition of the `for (const corpus of corpora)` loop of
`checkCorpusExists`: strict equality on the nullable proto fields. -/
def corpusMatches (corpusResourceName corpusName : String) (c : CorpusRecord) : Bool :=
  c.name == some corpusResourceName || c.displayName == some corpusName

/-- Embeds `checkCorpusExists` of src/tools/utils.ts (a tool context with a
state is assumed present, as in every call site). -/
def checkCorpusExists (cfg : Config) (corpusName : String) (st : SessionState)
    (registry : RegistryOutcome) : CheckResult :=
  if cfg.PROJECT_ID.isEmpty || cfg.LOCATION.isEmpty then ⟨false, st, 0⟩
  else if truthyOpt (stateGet st ("corpus_exists_" ++ corpusName)) then ⟨true, st, 0⟩
  else
    match registry with
    | .failure => ⟨false, st, 1⟩
    | .listing corpora =>
      let corpusResourceName := getCorpusResourceName cfg corpusName
      match corpora.find? (corpusMatches corpusResourceName corpusName) with
      | some _ =>
        let st1 := stateSet st ("corpus_exists_" ++ corpusName) (.vBool true)
        let st2 :=
          if truthyOpt (stateGet st1 "current_corpus") then st1
          else stateSet st1 "current_corpus" (.vStr corpusName)
        ⟨true, st2, 1⟩
      | none => ⟨false, st, 1⟩

/-- Embeds `resolveCorpusResourceName` of src/tools/utils.ts. -/
def resolveCorpusResourceName (cfg : Config) (corpusName : String)
    (registry : RegistryOutcome) : Option MatchResult × Nat :=
  if matchesResourceNamePattern corpusName then
    (some { resourceName := corpusName, displayName := none }, 0)
  else
    match registry with
    | .failure => (none, 1)
    | .listing corpora =>
      let constructed := getCorpusResourceName cfg corpusName
      let found :=
        match corpora.find? (fun c => c.name == some constructed) with
        | some c => some c
        | none => corpora.find? (fun c => c.displayName == some corpusName)
      match found with
      | none => (none, 1)
      | some c =>
        match c.name with
        | none => (none, 1)
        | some nm =>
          if nm.isEmpty then (none, 1)
          else (some { resourceName := nm, displayName := c.displayName }, 1)

/-- Embeds `invalidateCorpusExistsState` of src/tools/utils.ts. -/
def invalidateCorpusExistsState (corpusName : String) (st : SessionState) :
    SessionState :=
  let stateKey := "corpus_exists_" ++ corpusName
  if truthyOpt (stateGet st stateKey) then stateSet st stateKey (.vBool false)
  else st

/-- Outcome of the corpus-resolution phase of the `ragQuery` tool. -/
inductive RagResolveOutcome where
  | emptyQuery : RagResolveOutcome
  | configMissing : RagResolveOutcome
  | noTarget : RagResolveOutcome
  | notFound : String → RagResolveOutcome
  | resolved : String → String → RagResolveOutcome
deriving DecidableEq, Repr

/-- Embeds the corpus-resolution phase of `ragQuery` in src/tools/rag_query.ts
(up to and including the `findBestMatchingCorpus` call; the retrieval request
that follows is an external call outside this core).  Returns the outcome, the
session state when the phase ends (the source performs no state write in this
phase), and the number of listing calls. -/
def ragQueryResolve (cfg : Config) (corpusName query : String)
    (st : SessionState) (registry : RegistryOutcome) :
    RagResolveOutcome × SessionState × Nat :=
  let trimmedQuery := jsTrim query
  if trimmedQuery.isEmpty then (.emptyQuery, st, 0)
  else if cfg.PROJECT_ID.isEmpty || cfg.LOCATION.isEmpty then (.configMissing, st, 0)
  else
    let stateCorpus := stateGetStr st "current_corpus"
    let resolvedCorpusInput : Option String :=
      if !((jsTrim corpusName).isEmpty) then some (jsTrim corpusName) else stateCorpus
    match resolvedCorpusInput with
    | none => (.noTarget, st, 0)
    | some input =>
      if input.isEmpty then (.noTarget, st, 0)
      else
        match findBestMatchingCorpus cfg input registry with
        | (none, n) => (.notFound input, st, n)
        | (some m, n) =>
          (.resolved m.resourceName (m.displayName.getD m.resourceName), st, n)

/-!
Spec-side fuzzy resolver, written from the specification's words (§4.2):
normalize the query, build the three weighted candidate strings per corpus,
score every candidate containing the query, and keep the single
highest-scoring match with first-seen tie-breaking.
-/

/-- Modelled from the spec: the score of one candidate, `none` when the
normalized candidate does not contain the normalized query. -/
def specScoreOf (nq : String) (cand : String × Int) : Option Int :=
  (jsIndexOf (jsToLower cand.1) nq).map
    (fun (idx : Nat) => (nq.length : Int) * 100 + cand.2 - (idx : Int))

/-- Modelled from the spec: all scored matches a corpus contributes — display
name (weight 30), trailing resource-name segment (20), full resource name
(10). -/
def specScored (nq : String) (c : CorpusRecord) : List (Int × MatchResult) :=
  let resourceName := c.name.getD ""
  let displayName := c.displayName.getD ""
  [(displayName, (30 : Int)), (jsSplitPop resourceName, 20), (resourceName, 10)].filterMap
    (fun cand => (specScoreOf nq cand).map
      (fun sc => (sc, mkMatchResult resourceName displayName)))

/-- Modelled from the spec: keep the highest score seen so far; ties keep the
first-seen match. -/
def pickBestScored (acc : Option (Int × MatchResult)) (sm : Int × MatchResult) :
    Option (Int × MatchResult) :=
  match acc with
  | none => some sm
  | some best => if sm.1 > best.1 then some sm else acc

/-- Modelled from the spec (§4.2): the ranked substring matcher as the
specification words it. -/
def specFuzzyResolve (query : String) (corpora : List CorpusRecord) :
    Option MatchResult :=
  let nq := jsToLower (jsTrim query)
  if nq.isEmpty then none
  else ((corpora.flatMap (specScored nq)).foldl pickBestScored none).map (·.2)

/-- The code's pair of mutable variables `(bestScore, bestMatch)` viewed as
the projection of a single optional scored match. -/
def accOf (s : Option (Int × MatchResult)) : Option Int × Option MatchResult :=
  (s.map (·.1), s.map (·.2))

theorem considerCandidate_accOf (nq r d : String) (cand : String × Int)
    (s : Option (Int × MatchResult)) :
    considerCandidate nq r d (accOf s) cand =
      accOf (match specScoreOf nq cand with
             | none => s
             | some sc => pickBestScored s (sc, mkMatchResult r d)) := by
  unfold considerCandidate specScoreOf
  cases h : jsIndexOf (jsToLower cand.1) nq with
  | none => cases s <;> simp [h, accOf]
  | some idx =>
    cases s with
    | none => simp [h, accOf, scoreGt, pickBestScored]
    | some best =>
      rcases best with ⟨bs, m⟩
      by_cases hlt : bs < (nq.length : Int) * 100 + cand.2 - (idx : Int)
      · simp [h, accOf, scoreGt, pickBestScored, hlt]
      · simp [h, accOf, scoreGt, pickBestScored, hlt]

theorem foldCand_eq (nq r d : String) :
    ∀ (cands : List (String × Int)) (s : Option (Int × MatchResult)),
    cands.foldl (considerCandidate nq r d) (accOf s) =
      accOf ((cands.filterMap (fun cand => (specScoreOf nq cand).map
          (fun sc => (sc, mkMatchResult r d)))).foldl pickBestScored s)
  | [], _ => rfl
  | cand :: rest, s => by
    rw [List.foldl_cons, considerCandidate_accOf]
    cases h : specScoreOf nq cand with
    | none =>
      simp only [h]
      rw [foldCand_eq nq r d rest s]
      simp [List.filterMap_cons, h]
    | some sc =>
      simp only [h]
      rw [foldCand_eq nq r d rest (pickBestScored s (sc, mkMatchResult r d))]
      simp [List.filterMap_cons, h]

theorem considerCorpus_accOf (nq : String) (c : CorpusRecord)
    (s : Option (Int × MatchResult)) :
    considerCorpus nq (accOf s) c = accOf ((specScored nq c).foldl pickBestScored s) := by
  unfold considerCorpus specScored
  exact foldCand_eq nq (c.name.getD "") (c.displayName.getD "") _ s

theorem foldCorpus_eq (nq : String) :
    ∀ (corpora : List CorpusRecord) (s : Option (Int × MatchResult)),
    corpora.foldl (considerCorpus nq) (accOf s) =
      accOf ((corpora.flatMap (specScored nq)).foldl pickBestScored s)
  | [], _ => rfl
  | c :: rest, s => by
    rw [List.foldl_cons, considerCorpus_accOf,
      foldCorpus_eq nq rest ((specScored nq c).foldl pickBestScored s)]
    simp [List.flatMap_cons, List.foldl_append]

theorem findBest_listing_spec (cfg : Config) (query : String)
    (corpora : List CorpusRecord)
    (hcfg : (cfg.PROJECT_ID.isEmpty || cfg.LOCATION.isEmpty) = false) :
    (findBestMatchingCorpus cfg query (.listing corpora)).1 =
      specFuzzyResolve query corpora := by
  unfold findBestMatchingCorpus specFuzzyResolve
  cases hq : (jsToLower (jsTrim query)).isEmpty with
  | true => simp [hq]
  | false =>
    simp only [hq, hcfg, Bool.false_eq_true, if_false]
    rw [show ((none, none) : Option Int × Option MatchResult) = accOf none from rfl,
      foldCorpus_eq (jsToLower (jsTrim query)) corpora none]
    rfl

/-- C1: for every query and every listed set of corpus records (with the
project/location configuration set), the embedded `findBestMatchingCorpus`
returns exactly the result of the specification's ranked substring matcher:
per corpus the three candidate strings weighted 30 (display name), 20
(trailing resource-name segment) and 10 (full resource name); each candidate
whose lower-cased form contains the trimmed lower-cased query scores
`query.length * 100 + weight - indexOfMatch`; the overall highest-scoring
candidate's corpus is returned (first-seen on ties). -/
theorem fuzzy_resolver_implements_spec_scoring (cfg : Config) (query : String)
    (corpora : List CorpusRecord)
    (hcfg : (cfg.PROJECT_ID.isEmpty || cfg.LOCATION.isEmpty) = false) :
    (findBestMatchingCorpus cfg query (.listing corpora)).1 =
      specFuzzyResolve query corpora :=
  findBest_listing_spec cfg query corpora hcfg

/-- Witness for C1 at a concrete configuration, query and listing. -/
theorem fuzzy_resolver_implements_spec_scoring_witness :
    ((Config.mk "p" "l").PROJECT_ID.isEmpty || (Config.mk "p" "l").LOCATION.isEmpty) = false ∧
      (findBestMatchingCorpus (Config.mk "p" "l") "Notes"
        (.listing [⟨some "projects/p/locations/l/ragCorpora/a", some "Notes A"⟩])).1 =
        specFuzzyResolve "Notes" [⟨some "projects/p/locations/l/ragCorpora/a", some "Notes A"⟩] :=
  ⟨by decide,
   fuzzy_resolver_implements_spec_scoring (Config.mk "p" "l") "Notes"
     [⟨some "projects/p/locations/l/ragCorpora/a", some "Notes A"⟩] (by decide)⟩

theorem specScoreOf_le (nq : String) (cand : String × Int) (sc : Int)
    (h : specScoreOf nq cand = some sc) : sc ≤ (nq.length : Int) * 100 + cand.2 := by
  unfold specScoreOf at h
  cases hidx : jsIndexOf (jsToLower cand.1) nq with
  | none => rw [hidx] at h; simp at h
  | some idx =>
    rw [hidx] at h
    simp only [Option.map_some', Option.some.injEq] at h
    omega

theorem foldPick_skip (bs : Int) (m : MatchResult) :
    ∀ (l : List (Int × MatchResult)), (∀ sm ∈ l, sm.1 ≤ bs) →
      l.foldl pickBestScored (some (bs, m)) = some (bs, m)
  | [], _ => rfl
  | sm :: rest, h => by
    have h1 : sm.1 ≤ bs := h sm (List.mem_cons_self _ _)
    have hstep : pickBestScored (some (bs, m)) sm = some (bs, m) := by
      unfold pickBestScored
      have : ¬ sm.1 > bs := by omega
      simp [this]
    rw [List.foldl_cons, hstep]
    exact foldPick_skip bs m rest (fun x hx => h x (List.mem_cons_of_mem _ hx))

theorem specScored_le (nq : String) (c : CorpusRecord) :
    ∀ sm ∈ specScored nq c, sm.1 ≤ (nq.length : Int) * 100 + 30 := by
  intro sm hsm
  unfold specScored at hsm
  simp only [List.mem_filterMap, List.mem_cons, List.mem_singleton,
    List.not_mem_nil, or_false] at hsm
  obtain ⟨cand, hmem, hg⟩ := hsm
  cases hs : specScoreOf nq cand with
  | none => rw [hs] at hg; simp at hg
  | some sc =>
    rw [hs] at hg
    simp only [Option.map_some', Option.some.injEq] at hg
    have hle := specScoreOf_le nq cand sc hs
    have hsm1 : sm.1 = sc := by rw [← hg]
    have hp : cand.2 = 30 ∨ cand.2 = 20 ∨ cand.2 = 10 := by
      rcases hmem with h | h | h <;> rw [h] <;> simp
    rcases hp with h | h | h <;> rw [h] at hle <;> omega

/-- Counterexample to C2 as stated: with "Notes A" listed before "Notes",
both display-name candidates score 530 for the query "Notes" (offset-0
substring matches of equal query length), the tie keeps the first-seen
match, and the corpus returned is "Notes A" — not the corpus "Notes" —
so the listing order does matter. -/
theorem notes_tie_first_listed_wins_cx :
    (findBestMatchingCorpus (Config.mk "p" "l") "Notes"
        (.listing [⟨some "projects/p/locations/l/ragCorpora/a", some "Notes A"⟩,
                   ⟨some "projects/p/locations/l/ragCorpora/b", some "Notes"⟩])).1 =
      some ⟨"projects/p/locations/l/ragCorpora/a", some "Notes A"⟩ ∧
    (findBestMatchingCorpus (Config.mk "p" "l") "Notes"
        (.listing [⟨some "projects/p/locations/l/ragCorpora/a", some "Notes A"⟩,
                   ⟨some "projects/p/locations/l/ragCorpora/b", some "Notes"⟩])).1 ≠
      some ⟨"projects/p/locations/l/ragCorpora/b", some "Notes"⟩ :=
  ⟨by decide, by decide⟩

theorem specResolve_pair_head (c1 c2 : CorpusRecord) (dn1 dn2 : String)
    (h1 : c1.displayName = some dn1) (h2 : c2.displayName = some dn2)
    (hs1 : specScoreOf "notes" (dn1, 30) = some 530)
    (hs2 : specScoreOf "notes" (dn2, 30) = some 530) :
    specFuzzyResolve "Notes" [c1, c2] =
      some (mkMatchResult (c1.name.getD "") dn1) := by
  unfold specFuzzyResolve
  rw [show jsToLower (jsTrim "Notes") = "notes" from by decide]
  simp only [show ("notes").isEmpty = false from rfl, Bool.false_eq_true, if_false]
  have he1 : specScored "notes" c1 =
      (530, mkMatchResult (c1.name.getD "") dn1) ::
        [(jsSplitPop (c1.name.getD ""), (20 : Int)), (c1.name.getD "", 10)].filterMap
          (fun cand => (specScoreOf "notes" cand).map
            (fun sc => (sc, mkMatchResult (c1.name.getD "") dn1))) := by
    unfold specScored
    rw [h1]
    simp only [Option.getD_some, List.filterMap_cons, hs1, Option.map_some']
  have he2 : specScored "notes" c2 =
      (530, mkMatchResult (c2.name.getD "") dn2) ::
        [(jsSplitPop (c2.name.getD ""), (20 : Int)), (c2.name.getD "", 10)].filterMap
          (fun cand => (specScoreOf "notes" cand).map
            (fun sc => (sc, mkMatchResult (c2.name.getD "") dn2))) := by
    unfold specScored
    rw [h2]
    simp only [Option.getD_some, List.filterMap_cons, hs2, Option.map_some']
  have hb : ((5 : Int)) * 100 + 30 = 530 := by decide
  have hlen : (("notes".length : Int)) = 5 := by decide
  have hall : ∀ sm ∈ ([(jsSplitPop (c1.name.getD ""), (20 : Int)), (c1.name.getD "", 10)].filterMap
        (fun cand => (specScoreOf "notes" cand).map
          (fun sc => (sc, mkMatchResult (c1.name.getD "") dn1)))) ++
        specScored "notes" c2, sm.1 ≤ 530 := by
    intro sm hsm
    rcases List.mem_append.mp hsm with hmem | hmem
    · have : sm ∈ specScored "notes" c1 := by
        rw [he1]; exact List.mem_cons_of_mem _ hmem
      have := specScored_le "notes" c1 sm this
      rw [hlen, hb] at this
      exact this
    · have := specScored_le "notes" c2 sm hmem
      rw [hlen, hb] at this
      exact this
  rw [List.flatMap_cons, List.flatMap_cons, List.flatMap_nil, List.append_nil,
    he1, List.cons_append, List.foldl_cons]
  rw [show pickBestScored none (530, mkMatchResult (c1.name.getD "") dn1) =
      some (530, mkMatchResult (c1.name.getD "") dn1) from rfl]
  rw [foldPick_skip 530 (mkMatchResult (c1.name.getD "") dn1) _ hall]
  rfl

/-- C2 amended: for every pair of corpora with display names "Notes A" and
"Notes" (any resource names, configuration set), query "Notes" scores both
display-name candidates equally at 530 (both are offset-0 matches of the
full normalized query), so the tie is broken by listing order: the corpus
listed FIRST is returned — "Notes" wins exactly when it precedes "Notes A",
not regardless of order. -/
theorem notes_pair_first_listed_wins (cfg : Config) (n1 n2 : Option String)
    (hcfg : (cfg.PROJECT_ID.isEmpty || cfg.LOCATION.isEmpty) = false) :
    (findBestMatchingCorpus cfg "Notes"
        (.listing [⟨n1, some "Notes A"⟩, ⟨n2, some "Notes"⟩])).1 =
      some (mkMatchResult (n1.getD "") "Notes A") ∧
    (findBestMatchingCorpus cfg "Notes"
        (.listing [⟨n2, some "Notes"⟩, ⟨n1, some "Notes A"⟩])).1 =
      some (mkMatchResult (n2.getD "") "Notes") := by
  constructor
  · rw [findBest_listing_spec cfg "Notes" _ hcfg]
    exact specResolve_pair_head ⟨n1, some "Notes A"⟩ ⟨n2, some "Notes"⟩
      "Notes A" "Notes" rfl rfl (by decide) (by decide)
  · rw [findBest_listing_spec cfg "Notes" _ hcfg]
    exact specResolve_pair_head ⟨n2, some "Notes"⟩ ⟨n1, some "Notes A"⟩
      "Notes" "Notes A" rfl rfl (by decide) (by decide)

/-- Witness for the amended C2 at concrete resource names and configuration. -/
theorem notes_pair_first_listed_wins_witness :
    (((Config.mk "p" "l").PROJECT_ID.isEmpty || (Config.mk "p" "l").LOCATION.isEmpty) = false) ∧
    (findBestMatchingCorpus (Config.mk "p" "l") "Notes"
        (.listing [⟨some "ra", some "Notes A"⟩, ⟨some "rb", some "Notes"⟩])).1 =
      some (mkMatchResult ((some "ra").getD "") "Notes A") ∧
    (findBestMatchingCorpus (Config.mk "p" "l") "Notes"
        (.listing [⟨some "rb", some "Notes"⟩, ⟨some "ra", some "Notes A"⟩])).1 =
      some (mkMatchResult ((some "rb").getD "") "Notes") :=
  ⟨by decide,
   (notes_pair_first_listed_wins (Config.mk "p" "l") (some "ra") (some "rb") (by decide)).1,
   (notes_pair_first_listed_wins (Config.mk "p" "l") (some "ra") (some "rb") (by decide)).2⟩

theorem stateGet_set_self (st : SessionState) (k : String) (v : JSVal) :
    stateGet (stateSet st k v) k = some v := by
  simp [stateGet, stateSet]

theorem stateGet_set_other (st : SessionState) (k k' : String) (v : JSVal)
    (h : k ≠ k') : stateGet (stateSet st k v) k' = stateGet st k' := by
  simp [stateGet, stateSet, h]

theorem string_eq_of_data (a b : String) (h : a.data = b.data) : a = b := by
  cases a; cases b; cases h; rfl

theorem exists_key_ne_current (n : String) :
    "corpus_exists_" ++ n ≠ "current_corpus" := by
  intro h
  have hd : ("corpus_exists_" ++ n).data = "current_corpus".data := by rw [h]
  rw [show ("corpus_exists_" ++ n).data = "corpus_exists_".data ++ n.data from rfl] at hd
  simp at hd

/-- Counterexample to C3 as stated: a failed registry listing produces
EXACTLY the same outcome as genuine non-existence (an empty listing): same
boolean / null result, same state, same number of listing calls — the two
situations are not distinguishable to the caller. -/
theorem registry_failure_indistinguishable_cx :
    checkCorpusExists (Config.mk "p" "l") "foo" [] .failure =
      checkCorpusExists (Config.mk "p" "l") "foo" [] (.listing []) ∧
    findBestMatchingCorpus (Config.mk "p" "l") "foo" .failure =
      findBestMatchingCorpus (Config.mk "p" "l") "foo" (.listing []) :=
  ⟨by decide, by decide⟩

/-- C3 amended: when the registry listing call fails, `checkCorpusExists`
answers `false` and `findBestMatchingCorpus` answers null — the same
outcomes as genuine non-existence, NOT distinguishable from it — and neither
operation mutates any Session Cache state on that path (`checkCorpusExists`
returns the input state unchanged; the fuzzy resolver takes no state). -/
theorem registry_failure_negative_without_mutation (cfg : Config)
    (corpusName : String) (st : SessionState)
    (hcfg : (cfg.PROJECT_ID.isEmpty || cfg.LOCATION.isEmpty) = false)
    (hmiss : truthyOpt (stateGet st ("corpus_exists_" ++ corpusName)) = false) :
    checkCorpusExists cfg corpusName st .failure = ⟨false, st, 1⟩ ∧
    checkCorpusExists cfg corpusName st .failure =
      checkCorpusExists cfg corpusName st (.listing []) ∧
    (findBestMatchingCorpus cfg corpusName .failure).1 = none := by
  refine ⟨?_, ?_, ?_⟩
  · simp [checkCorpusExists, hcfg, hmiss]
  · simp [checkCorpusExists, hcfg, hmiss, List.find?]
  · unfold findBestMatchingCorpus
    cases hq : (jsToLower (jsTrim corpusName)).isEmpty <;> simp [hq, hcfg]

/-- Witness for the amended C3 at a concrete configuration and state. -/
theorem registry_failure_negative_without_mutation_witness :
    truthyOpt (stateGet ([] : SessionState) ("corpus_exists_" ++ "foo")) = false ∧
    checkCorpusExists (Config.mk "p" "l") "foo" [] .failure = ⟨false, [], 1⟩ :=
  ⟨by decide,
   (registry_failure_negative_without_mutation (Config.mk "p" "l") "foo" []
     (by decide) (by decide)).1⟩

/-- C5: when the existence of an identifier is confirmed against the listing
(configuration set, no cached flag, some record matches by exact resource
name or display name), the check answers true, sets the
`corpus_exists_<identifier>` flag to true, and sets `current_corpus` to the
identifier exactly when no truthy `current_corpus` value was previously
present — an existing (truthy) `current_corpus` is never overwritten. -/
theorem existence_check_records_flag_and_default (cfg : Config)
    (corpusName : String) (st : SessionState) (corpora : List CorpusRecord)
    (hcfg : (cfg.PROJECT_ID.isEmpty || cfg.LOCATION.isEmpty) = false)
    (hmiss : truthyOpt (stateGet st ("corpus_exists_" ++ corpusName)) = false)
    (hfound : (corpora.find? (corpusMatches (getCorpusResourceName cfg corpusName)
      corpusName)).isSome = true) :
    (checkCorpusExists cfg corpusName st (.listing corpora)).result = true ∧
    stateGet (checkCorpusExists cfg corpusName st (.listing corpora)).state
      ("corpus_exists_" ++ corpusName) = some (.vBool true) ∧
    (truthyOpt (stateGet st "current_corpus") = true →
      stateGet (checkCorpusExists cfg corpusName st (.listing corpora)).state
        "current_corpus" = stateGet st "current_corpus") ∧
    (truthyOpt (stateGet st "current_corpus") = false →
      stateGet (checkCorpusExists cfg corpusName st (.listing corpora)).state
        "current_corpus" = some (.vStr corpusName)) := by
  cases hf : corpora.find? (corpusMatches (getCorpusResourceName cfg corpusName)
      corpusName) with
  | none => rw [hf] at hfound; simp at hfound
  | some c =>
    have hne : ("corpus_exists_" ++ corpusName) ≠ "current_corpus" :=
      exists_key_ne_current corpusName
    have hget1 : stateGet (stateSet st ("corpus_exists_" ++ corpusName) (.vBool true))
        "current_corpus" = stateGet st "current_corpus" :=
      stateGet_set_other st _ _ _ hne
    have hres : checkCorpusExists cfg corpusName st (.listing corpora) =
        ⟨true,
         if truthyOpt (stateGet st "current_corpus") = true
         then stateSet st ("corpus_exists_" ++ corpusName) (.vBool true)
         else stateSet (stateSet st ("corpus_exists_" ++ corpusName) (.vBool true))
           "current_corpus" (.vStr corpusName), 1⟩ := by
      unfold checkCorpusExists
      simp only [hcfg, Bool.false_eq_true, if_false, hmiss, hf, hget1]
    rw [hres]
    refine ⟨rfl, ?_, ?_, ?_⟩
    · cases ht : truthyOpt (stateGet st "current_corpus") with
      | true =>
        simp only [ht, if_true]
        exact stateGet_set_self st _ _
      | false =>
        simp only [ht, Bool.false_eq_true, if_false]
        rw [stateGet_set_other _ _ _ _ (Ne.symm hne)]
        exact stateGet_set_self st _ _
    · intro ht
      simp only [ht, if_true]
      exact hget1
    · intro ht
      simp only [ht, Bool.false_eq_true, if_false]
      exact stateGet_set_self _ _ _

/-- Witness for C5: a fresh state, a listing whose record's display name
equals the identifier. -/
theorem existence_check_records_flag_and_default_witness :
    (((Config.mk "p" "l").PROJECT_ID.isEmpty || (Config.mk "p" "l").LOCATION.isEmpty) = false) ∧
    truthyOpt (stateGet ([] : SessionState) ("corpus_exists_" ++ "foo")) = false ∧
    (([⟨some "x", some "foo"⟩] : List CorpusRecord).find?
      (corpusMatches (getCorpusResourceName (Config.mk "p" "l") "foo") "foo")).isSome = true ∧
    (checkCorpusExists (Config.mk "p" "l") "foo" [] (.listing [⟨some "x", some "foo"⟩])).result = true ∧
    stateGet (checkCorpusExists (Config.mk "p" "l") "foo" []
      (.listing [⟨some "x", some "foo"⟩])).state "current_corpus" = some (.vStr "foo") :=
  ⟨by decide, by decide, by decide,
   (existence_check_records_flag_and_default (Config.mk "p" "l") "foo" []
     [⟨some "x", some "foo"⟩] (by decide) (by decide) (by decide)).1,
   (existence_check_records_flag_and_default (Config.mk "p" "l") "foo" []
     [⟨some "x", some "foo"⟩] (by decide) (by decide) (by decide)).2.2.2 (by decide)⟩

/-- C6: `invalidateCorpusExistsState` leaves every key other than its own
flag (in particular `current_corpus`) untouched; it flips a previously-true
flag to false; and it is a complete no-op — the state value is returned
unchanged — when the flag was never set or was already false. -/
theorem invalidate_flips_flag_and_frames (st : SessionState) (n : String) :
    (∀ k, k ≠ "corpus_exists_" ++ n →
      stateGet (invalidateCorpusExistsState n st) k = stateGet st k) ∧
    (stateGet st ("corpus_exists_" ++ n) = some (.vBool true) →
      stateGet (invalidateCorpusExistsState n st) ("corpus_exists_" ++ n) =
        some (.vBool false)) ∧
    (stateGet st ("corpus_exists_" ++ n) = none →
      invalidateCorpusExistsState n st = st) ∧
    (stateGet st ("corpus_exists_" ++ n) = some (.vBool false) →
      invalidateCorpusExistsState n st = st) := by
  refine ⟨?_, ?_, ?_, ?_⟩
  · intro k hk
    unfold invalidateCorpusExistsState
    cases ht : truthyOpt (stateGet st ("corpus_exists_" ++ n)) with
    | false => simp [ht]
    | true =>
      simp only [ht, if_true]
      exact stateGet_set_other _ _ _ _ (Ne.symm hk)
  · intro h
    unfold invalidateCorpusExistsState
    simp only [h, truthyOpt, JSVal.truthy, if_true]
    exact stateGet_set_self _ _ _
  · intro h
    unfold invalidateCorpusExistsState
    simp [h, truthyOpt]
  · intro h
    unfold invalidateCorpusExistsState
    simp [h, truthyOpt, JSVal.truthy]

/-- Witness for C6: flag flipped on a one-entry state, `current_corpus`
untouched, and the no-op case on the empty state. -/
theorem invalidate_flips_flag_and_frames_witness :
    stateGet (invalidateCorpusExistsState "foo"
      [("corpus_exists_foo", JSVal.vBool true), ("current_corpus", JSVal.vStr "foo")])
      ("corpus_exists_" ++ "foo") = some (.vBool false) ∧
    stateGet (invalidateCorpusExistsState "foo"
      [("corpus_exists_foo", JSVal.vBool true), ("current_corpus", JSVal.vStr "foo")])
      "current_corpus" = some (.vStr "foo") ∧
    invalidateCorpusExistsState "foo" [] = [] :=
  ⟨(invalidate_flips_flag_and_frames
      [("corpus_exists_foo", JSVal.vBool true), ("current_corpus", JSVal.vStr "foo")]
      "foo").2.1 (by decide),
   ((invalidate_flips_flag_and_frames
      [("corpus_exists_foo", JSVal.vBool true), ("current_corpus", JSVal.vStr "foo")]
      "foo").1 "current_corpus" (by decide)).trans (by decide),
   (invalidate_flips_flag_and_frames [] "foo").2.2.1 (by decide)⟩

/-- C7: for an identifier matching no record of the listing, the existence
check answers false and returns the session state COMPLETELY unchanged
(neither the existence flag nor `current_corpus` is written), and the
`ragQuery` resolution phase answers NotFound with the state unchanged when
the fuzzy pass finds no match. -/
theorem no_match_returns_false_without_mutation (cfg : Config)
    (corpusName : String) (st : SessionState) (corpora : List CorpusRecord)
    (hcfg : (cfg.PROJECT_ID.isEmpty || cfg.LOCATION.isEmpty) = false)
    (hmiss : truthyOpt (stateGet st ("corpus_exists_" ++ corpusName)) = false)
    (hnone : corpora.find? (corpusMatches (getCorpusResourceName cfg corpusName)
      corpusName) = none) :
    checkCorpusExists cfg corpusName st (.listing corpora) = ⟨false, st, 1⟩ ∧
    (∀ query, (jsTrim query).isEmpty = false →
      (jsTrim corpusName).isEmpty = false →
      findBestMatchingCorpus cfg (jsTrim corpusName) (.listing corpora) = (none, 1) →
      ragQueryResolve cfg corpusName query st (.listing corpora) =
        (.notFound (jsTrim corpusName), st, 1)) := by
  constructor
  · unfold checkCorpusExists
    simp only [hcfg, Bool.false_eq_true, if_false, hmiss, hnone]
  · intro query hq hcn hfz
    unfold ragQueryResolve
    simp only [hq, Bool.false_eq_true, if_false, hcfg, hcn, Bool.not_false, if_true, hfz]

/-- Witness for C7 at a concrete identifier, state and listing. -/
theorem no_match_returns_false_without_mutation_witness :
    checkCorpusExists (Config.mk "p" "l") "bar" []
      (.listing [⟨some "x", some "foo"⟩]) = ⟨false, [], 1⟩ ∧
    ragQueryResolve (Config.mk "p" "l") "bar" "what" []
      (.listing [⟨some "x", some "foo"⟩]) = (.notFound (jsTrim "bar"), [], 1) :=
  ⟨(no_match_returns_false_without_mutation (Config.mk "p" "l") "bar" []
      [⟨some "x", some "foo"⟩] (by decide) (by decide) (by decide)).1,
   (no_match_returns_false_without_mutation (Config.mk "p" "l") "bar" []
      [⟨some "x", some "foo"⟩] (by decide) (by decide) (by decide)).2
     "what" (by decide) (by decide) (by decide)⟩

/-- C8: an empty or whitespace-only query makes the fuzzy resolver return
null with ZERO registry listing calls, for every registry state; and the
`ragQuery` resolution phase with an empty/whitespace corpus name and no
truthy cached `current_corpus` answers NoTarget with zero listing calls. -/
theorem empty_query_no_registry_call :
    (∀ (cfg : Config) (q : String) (registry : RegistryOutcome), jsTrim q = "" →
      findBestMatchingCorpus cfg q registry = (none, 0)) ∧
    (∀ (cfg : Config) (cn q : String) (st : SessionState)
      (registry : RegistryOutcome),
      (jsTrim q).isEmpty = false →
      (cfg.PROJECT_ID.isEmpty || cfg.LOCATION.isEmpty) = false →
      jsTrim cn = "" →
      (stateGetStr st "current_corpus").getD "" = "" →
      ragQueryResolve cfg cn q st registry = (.noTarget, st, 0)) := by
  constructor
  · intro cfg q registry hq
    unfold findBestMatchingCorpus
    rw [hq]
    simp [show (jsToLower "").isEmpty = true from rfl]
  · intro cfg cn q st registry hq hcfg hcn hcc
    have hcn' : (jsTrim cn).isEmpty = true := by rw [hcn]; rfl
    unfold ragQueryResolve
    simp only [hq, Bool.false_eq_true, if_false, hcfg, hcn', Bool.not_true]
    cases hsc : stateGetStr st "current_corpus" with
    | none => rfl
    | some s =>
      have hs : s.isEmpty = true := by
        rw [hsc] at hcc
        simp only [Option.getD_some] at hcc
        rw [hcc]; rfl
      simp only [hs, if_true]

/-- Witness for C8: whitespace-only inputs, registry in failure state (it is
never consulted: zero calls). -/
theorem empty_query_no_registry_call_witness :
    jsTrim "   " = "" ∧
    findBestMatchingCorpus (Config.mk "p" "l") "   " .failure = (none, 0) ∧
    ragQueryResolve (Config.mk "p" "l") "  " "ask" [] .failure = (.noTarget, [], 0) :=
  ⟨by decide,
   empty_query_no_registry_call.1 (Config.mk "p" "l") "   " .failure (by decide),
   empty_query_no_registry_call.2 (Config.mk "p" "l") "  " "ask" [] .failure
     (by decide) (by decide) (by decide) (by decide)⟩

theorem considerCandidate_snd (nq r d : String) (acc : Option Int × Option MatchResult)
    (cand : String × Int) :
    (considerCandidate nq r d acc cand).2 = acc.2 ∨
      (considerCandidate nq r d acc cand).2 = some (mkMatchResult r d) := by
  unfold considerCandidate
  cases h : jsIndexOf (jsToLower cand.1) nq with
  | none => left; rfl
  | some idx =>
    cases hgt : scoreGt ((nq.length : Int) * 100 + cand.2 - (idx : Int)) acc.1 with
    | false => left; simp [hgt]
    | true => right; simp [hgt]

theorem foldCand_snd (nq r d : String) :
    ∀ (cands : List (String × Int)) (acc : Option Int × Option MatchResult),
    ((cands.foldl (considerCandidate nq r d) acc).2 = acc.2 ∨
     (cands.foldl (considerCandidate nq r d) acc).2 = some (mkMatchResult r d))
  | [], _ => Or.inl rfl
  | cand :: rest, acc => by
    rw [List.foldl_cons]
    rcases foldCand_snd nq r d rest (considerCandidate nq r d acc cand) with h | h
    · rw [h]; exact considerCandidate_snd nq r d acc cand
    · right; exact h

theorem considerCorpus_snd (nq : String) (acc : Option Int × Option MatchResult)
    (c : CorpusRecord) :
    (considerCorpus nq acc c).2 = acc.2 ∨
      (considerCorpus nq acc c).2 =
        some (mkMatchResult (c.name.getD "") (c.displayName.getD "")) := by
  unfold considerCorpus
  exact foldCand_snd nq (c.name.getD "") (c.displayName.getD "") _ acc

theorem foldCorpus_snd (nq : String) :
    ∀ (l : List CorpusRecord) (acc : Option Int × Option MatchResult),
    (l.foldl (considerCorpus nq) acc).2 = acc.2 ∨
      ∃ c ∈ l, (l.foldl (considerCorpus nq) acc).2 =
        some (mkMatchResult (c.name.getD "") (c.displayName.getD ""))
  | [], _ => Or.inl rfl
  | c :: rest, acc => by
    rw [List.foldl_cons]
    rcases foldCorpus_snd nq rest (considerCorpus nq acc c) with h | ⟨c', hc', h⟩
    · rw [h]
      rcases considerCorpus_snd nq acc c with h2 | h2
      · left; exact h2
      · right; exact ⟨c, List.mem_cons_self _ _, h2⟩
    · right; exact ⟨c', List.mem_cons_of_mem _ hc', h⟩

/-- Counterexample to C4 as stated: an input already in full resource-name
form is returned as a handle by `resolveCorpusResourceName` WITHOUT any
listing call (zero calls), here against an empty listing containing no
record at all — a handle not observed in any listing of that call. -/
theorem resource_name_fastpath_fabricates_handle_cx :
    resolveCorpusResourceName (Config.mk "p" "l")
        "projects/p/locations/l/ragCorpora/c" (.listing []) =
      (some ⟨"projects/p/locations/l/ragCorpora/c", none⟩, 0) := by decide

/-- C4 amended: every handle returned by `findBestMatchingCorpus` corresponds
to a record of the listing obtained in that call, and so does every handle
returned by `resolveCorpusResourceName` for inputs NOT already in full
resource-name form; inputs already matching the resource-name pattern are
returned as handles without consulting the listing at all. -/
theorem resolution_handles_come_from_listing (cfg : Config) (q : String)
    (corpora : List CorpusRecord) (m : MatchResult) :
    ((findBestMatchingCorpus cfg q (.listing corpora)).1 = some m →
      ∃ c ∈ corpora, m = mkMatchResult (c.name.getD "") (c.displayName.getD "")) ∧
    (matchesResourceNamePattern q = false →
      (resolveCorpusResourceName cfg q (.listing corpora)).1 = some m →
      ∃ c ∈ corpora, c.name = some m.resourceName ∧ c.displayName = m.displayName) := by
  constructor
  · intro h
    unfold findBestMatchingCorpus at h
    cases hq : (jsToLower (jsTrim q)).isEmpty with
    | true => simp [hq] at h
    | false =>
      simp only [hq, Bool.false_eq_true, if_false] at h
      cases hcfg : (cfg.PROJECT_ID.isEmpty || cfg.LOCATION.isEmpty) with
      | true => simp [hcfg] at h
      | false =>
        simp only [hcfg, Bool.false_eq_true, if_false] at h
        rcases foldCorpus_snd (jsToLower (jsTrim q)) corpora (none, none) with h2 | ⟨c, hc, h2⟩
        · rw [h2] at h; cases h
        · rw [h2] at h
          exact ⟨c, hc, (Option.some.inj h).symm⟩
  · intro hpat h
    unfold resolveCorpusResourceName at h
    rw [hpat] at h
    simp only [Bool.false_eq_true, if_false] at h
    cases hf : (match corpora.find? (fun c => c.name ==
          some (getCorpusResourceName cfg q)) with
        | some c => some c
        | none => corpora.find? (fun c => c.displayName == some q)) with
    | none => rw [hf] at h; cases h
    | some c =>
      have hmem : c ∈ corpora := by
        cases hf1 : corpora.find? (fun c => c.name ==
            some (getCorpusResourceName cfg q)) with
        | some c0 =>
          rw [hf1] at hf
          cases hf
          exact List.mem_of_find?_eq_some hf1
        | none =>
          rw [hf1] at hf
          exact List.mem_of_find?_eq_some hf
      rw [hf] at h
      dsimp only at h
      cases hn : c.name with
      | none => rw [hn] at h; cases h
      | some nm =>
        rw [hn] at h
        cases he : nm.isEmpty with
        | true => simp [he] at h
        | false =>
          simp only [he, Bool.false_eq_true, if_false] at h
          have hm : m = ⟨nm, c.displayName⟩ := (Option.some.inj h).symm
          exact ⟨c, hmem, by rw [hm, hn], by rw [hm]⟩

/-- Witness for the amended C4: both implications applied at concrete
inputs. -/
theorem resolution_handles_come_from_listing_witness :
    (∃ c ∈ [(⟨some "r1", some "Research Notes"⟩ : CorpusRecord)],
      mkMatchResult "r1" "Research Notes" =
        mkMatchResult (c.name.getD "") (c.displayName.getD "")) ∧
    (∃ c ∈ [(⟨some "r1", some "Research Notes"⟩ : CorpusRecord)],
      c.name = some (⟨"r1", some "Research Notes"⟩ : MatchResult).resourceName ∧
      c.displayName = (⟨"r1", some "Research Notes"⟩ : MatchResult).displayName) :=
  ⟨(resolution_handles_come_from_listing (Config.mk "p" "l") "notes"
      [⟨some "r1", some "Research Notes"⟩] (mkMatchResult "r1" "Research Notes")).1
      (by decide),
   (resolution_handles_come_from_listing (Config.mk "p" "l") "Research Notes"
      [⟨some "r1", some "Research Notes"⟩] ⟨"r1", some "Research Notes"⟩).2
      (by decide) (by decide)⟩

theorem splitSlash_append (ys : List Char) :
    ∀ (xs : List Char), '/' ∉ xs →
      splitSlash (xs ++ '/' :: ys) = xs :: splitSlash ys
  | [], _ => by simp [splitSlash]
  | c :: t, h => by
    have hc : ¬ (c = '/') := fun e => h (e ▸ List.mem_cons_self _ _)
    have ht : '/' ∉ t := fun m => h (List.mem_cons_of_mem _ m)
    rw [List.cons_append]
    simp only [splitSlash, hc, if_false, splitSlash_append ys t ht]

theorem splitSlash_no_slash : ∀ (xs : List Char), '/' ∉ xs → splitSlash xs = [xs]
  | [], _ => rfl
  | c :: t, h => by
    have hc : ¬ (c = '/') := fun e => h (e ▸ List.mem_cons_self _ _)
    have ht : '/' ∉ t := fun m => h (List.mem_cons_of_mem _ m)
    simp only [splitSlash, hc, if_false, splitSlash_no_slash t ht]

theorem canon_data (P L id : String) :
    ("projects/" ++ P ++ "/locations/" ++ L ++ "/ragCorpora/" ++ id).data =
      "projects".data ++ '/' :: (P.data ++ '/' :: ("locations".data ++ '/' ::
        (L.data ++ '/' :: ("ragCorpora".data ++ '/' :: id.data)))) := by
  simp [List.append_assoc]

theorem canon_splitSlash (cfg : Config) (id : String)
    (hPn : '/' ∉ cfg.PROJECT_ID.data) (hLn : '/' ∉ cfg.LOCATION.data)
    (hidn : '/' ∉ id.data) :
    splitSlash ("projects/" ++ cfg.PROJECT_ID ++ "/locations/" ++ cfg.LOCATION ++
        "/ragCorpora/" ++ id).data =
      ["projects".data, cfg.PROJECT_ID.data, "locations".data, cfg.LOCATION.data,
       "ragCorpora".data, id.data] := by
  rw [canon_data, splitSlash_append _ _ (by decide), splitSlash_append _ _ hPn,
    splitSlash_append _ _ (by decide), splitSlash_append _ _ hLn,
    splitSlash_append _ _ (by decide), splitSlash_no_slash _ hidn]

theorem isEmpty_false_of_ne_nil {l : List Char} (h : l ≠ []) : l.isEmpty = false := by
  cases l with
  | nil => exact absurd rfl h
  | cons c t => rfl

theorem canon_matches (cfg : Config) (id : String)
    (hP : cfg.PROJECT_ID.data ≠ []) (hL : cfg.LOCATION.data ≠ [])
    (hPn : '/' ∉ cfg.PROJECT_ID.data) (hLn : '/' ∉ cfg.LOCATION.data)
    (hid : id.data ≠ []) (hidn : '/' ∉ id.data) :
    matchesResourceNamePattern ("projects/" ++ cfg.PROJECT_ID ++ "/locations/" ++
      cfg.LOCATION ++ "/ragCorpora/" ++ id) = true := by
  unfold matchesResourceNamePattern
  rw [canon_splitSlash cfg id hPn hLn hidn]
  simp [isEmpty_false_of_ne_nil hP, isEmpty_false_of_ne_nil hL,
    isEmpty_false_of_ne_nil hid]

theorem data_ne_nil_of_ne_empty (s : String) (h : s ≠ "") : s.data ≠ [] := by
  intro hd
  exact h (string_eq_of_data s "" hd)

theorem jsSplitPop_data_ne (s : String) (hs : s.data ≠ []) :
    (jsSplitPop s).data ≠ [] := by
  unfold jsSplitPop
  cases hl : (splitSlash s.data).getLast? with
  | none => exact hs
  | some seg =>
    by_cases hseg : seg = []
    · simp only [hseg, if_pos rfl]
      exact hs
    · simp only [hseg, if_neg hseg]
      exact hseg

theorem map_clean_ne {l : List Char} (h : l ≠ []) : l.map cleanChar ≠ [] := by
  cases l with
  | nil => exact absurd rfl h
  | cons c t => simp

theorem cleanChar_ne_slash (c : Char) : cleanChar c ≠ '/' := by
  unfold cleanChar
  by_cases h : isAllowedChar c = true
  · rw [if_pos h]
    intro e
    rw [e] at h
    exact absurd h (by decide)
  · rw [if_neg h]
    decide

theorem slash_not_mem_clean (l : List Char) : '/' ∉ l.map cleanChar := by
  intro hm
  rcases List.mem_map.mp hm with ⟨c, _, hc⟩
  exact cleanChar_ne_slash c hc

theorem clean_allowed (l : List Char) :
    ∀ c ∈ l.map cleanChar, isAllowedChar c = true := by
  intro c hc
  rcases List.mem_map.mp hc with ⟨x, _, hx⟩
  rw [← hx]
  unfold cleanChar
  by_cases h : isAllowedChar x = true
  · rw [if_pos h]; exact h
  · rw [if_neg h]; decide

theorem getLast?_six (a b c d e f : List Char) :
    ([a, b, c, d, e, f] : List (List Char)).getLast? = some f := rfl

theorem jsSplitPop_canon (cfg : Config) (id : String)
    (hPn : '/' ∉ cfg.PROJECT_ID.data) (hLn : '/' ∉ cfg.LOCATION.data)
    (hidn : '/' ∉ id.data) (hid : id.data ≠ []) :
    jsSplitPop ("projects/" ++ cfg.PROJECT_ID ++ "/locations/" ++ cfg.LOCATION ++
      "/ragCorpora/" ++ id) = id := by
  unfold jsSplitPop
  rw [canon_splitSlash cfg id hPn hLn hidn, getLast?_six]
  dsimp only
  rw [if_neg hid]

theorem getCorpusResourceName_of_matches (cfg : Config) (t : String)
    (h : matchesResourceNamePattern t = true) : getCorpusResourceName cfg t = t := by
  unfold getCorpusResourceName
  simp [h]

/-- Counterexample to C9 as stated: the canonicalizer is NOT idempotent on
the empty string: canonicalizing `""` yields a handle whose trailing id
segment is empty (it does not match the resource-name pattern), and
canonicalizing that handle again further rewrites it. -/
theorem canonicalize_not_idempotent_cx :
    getCorpusResourceName (Config.mk "p" "l")
        (getCorpusResourceName (Config.mk "p" "l") "") ≠
      getCorpusResourceName (Config.mk "p" "l") "" := by decide

/-- C9 amended: for every NON-EMPTY input (under a set, slash-free
project/location configuration) canonicalization is idempotent —
`canonicalize (canonicalize s) = canonicalize s`; an input already matching
the full `projects/<p>/locations/<l>/ragCorpora/<id>` pattern is returned
unchanged; and for non-pattern inputs every character of the produced
handle's trailing id segment lies in the allowed class `[a-zA-Z0-9_-]`
(each disallowed character having been replaced by underscore).  The empty
string is a genuine exception (see the counterexample). -/
theorem canonicalize_idempotent_on_nonempty (cfg : Config) (s : String)
    (hP : cfg.PROJECT_ID ≠ "") (hL : cfg.LOCATION ≠ "")
    (hPn : '/' ∉ cfg.PROJECT_ID.data) (hLn : '/' ∉ cfg.LOCATION.data)
    (hs : s ≠ "") :
    getCorpusResourceName cfg (getCorpusResourceName cfg s) =
      getCorpusResourceName cfg s ∧
    (matchesResourceNamePattern s = true → getCorpusResourceName cfg s = s) ∧
    (matchesResourceNamePattern s = false →
      ∀ c ∈ (jsSplitPop (getCorpusResourceName cfg s)).data,
        isAllowedChar c = true) := by
  have hpart2 : matchesResourceNamePattern s = true →
      getCorpusResourceName cfg s = s := getCorpusResourceName_of_matches cfg s
  cases hpat : matchesResourceNamePattern s with
  | true =>
    refine ⟨?_, fun _ => hpart2 hpat, ?_⟩
    · rw [hpart2 hpat]
      exact hpart2 hpat
    · intro hfalse
      cases hfalse
  | false =>
    have hid : (jsSplitPop s).data ≠ [] :=
      jsSplitPop_data_ne s (data_ne_nil_of_ne_empty s hs)
    have hclean_ne : ((jsSplitPop s).data.map cleanChar) ≠ [] := map_clean_ne hid
    have hr : getCorpusResourceName cfg s =
        "projects/" ++ cfg.PROJECT_ID ++ "/locations/" ++ cfg.LOCATION ++
          "/ragCorpora/" ++ String.mk ((jsSplitPop s).data.map cleanChar) := by
      unfold getCorpusResourceName
      simp only [hpat, Bool.false_eq_true, if_false]
    have hmatch_r : matchesResourceNamePattern (getCorpusResourceName cfg s) = true := by
      rw [hr]
      exact canon_matches cfg _ (data_ne_nil_of_ne_empty _ hP)
        (data_ne_nil_of_ne_empty _ hL) hPn hLn hclean_ne (slash_not_mem_clean _)
    refine ⟨?_, fun hfalse => absurd hfalse (by simp), ?_⟩
    · exact getCorpusResourceName_of_matches cfg _ hmatch_r
    · intro _
      rw [hr, jsSplitPop_canon cfg _ hPn hLn (slash_not_mem_clean _) hclean_ne]
      exact clean_allowed _

/-- Witness for the amended C9 at a concrete configuration and input with
disallowed characters. -/
theorem canonicalize_idempotent_on_nonempty_witness :
    getCorpusResourceName (Config.mk "p" "l")
        (getCorpusResourceName (Config.mk "p" "l") "my corpus!") =
      getCorpusResourceName (Config.mk "p" "l") "my corpus!" :=
  (canonicalize_idempotent_on_nonempty (Config.mk "p" "l") "my corpus!"
    (by decide) (by decide) (by decide) (by decide) (by decide)).1

/-- C10: the existence check matches only by EXACT equality — a record's
resource name equal to the canonicalized identifier or its display name
equal to the literal identifier (first conjunct, an iff characterization on
the cache-miss path) — and consequently there are identifiers for which the
fuzzy resolver finds a match while the existence check answers false on the
very same identifier and listing: the case-differing display-name reference
"research notes" against a corpus displayed as "Research Notes" (second
conjunct). -/
theorem exact_equality_check_vs_fuzzy_divergence :
    (∀ (cfg : Config) (n : String) (st : SessionState) (corpora : List CorpusRecord),
      (cfg.PROJECT_ID.isEmpty || cfg.LOCATION.isEmpty) = false →
      truthyOpt (stateGet st ("corpus_exists_" ++ n)) = false →
      ((checkCorpusExists cfg n st (.listing corpora)).result = true ↔
        ∃ c ∈ corpora, (c.name = some (getCorpusResourceName cfg n) ∨
          c.displayName = some n))) ∧
    ((findBestMatchingCorpus (Config.mk "p" "l") "research notes"
        (.listing [⟨some "projects/p/locations/l/ragCorpora/abc",
          some "Research Notes"⟩])).1.isSome = true ∧
     (checkCorpusExists (Config.mk "p" "l") "research notes" []
        (.listing [⟨some "projects/p/locations/l/ragCorpora/abc",
          some "Research Notes"⟩])).result = false) := by
  constructor
  · intro cfg n st corpora hcfg hmiss
    have hiff : (corpora.find? (corpusMatches (getCorpusResourceName cfg n) n)).isSome ↔
        ∃ c ∈ corpora, (c.name = some (getCorpusResourceName cfg n) ∨
          c.displayName = some n) := by
      rw [List.find?_isSome]
      constructor
      · rintro ⟨c, hc, hp⟩
        refine ⟨c, hc, ?_⟩
        unfold corpusMatches at hp
        rcases Bool.or_eq_true_iff.mp hp with h | h
        · exact Or.inl (eq_of_beq h)
        · exact Or.inr (eq_of_beq h)
      · rintro ⟨c, hc, hp⟩
        refine ⟨c, hc, ?_⟩
        unfold corpusMatches
        rcases hp with h | h
        · exact Bool.or_eq_true_iff.mpr (Or.inl (beq_iff_eq.mpr h))
        · exact Bool.or_eq_true_iff.mpr (Or.inr (beq_iff_eq.mpr h))
    unfold checkCorpusExists
    simp only [hcfg, Bool.false_eq_true, if_false, hmiss]
    cases hf : corpora.find? (corpusMatches (getCorpusResourceName cfg n) n) with
    | none =>
      rw [hf] at hiff
      simp only [Option.isSome_none, Bool.false_eq_true, false_iff] at hiff
      simpa using hiff
    | some c =>
      rw [hf] at hiff
      simp only [Option.isSome_some, true_iff] at hiff
      simpa using hiff
  · exact ⟨by decide, by decide⟩

/-- Witness for C10's characterization at a concrete listing (mpr and mp
directions both exercised through the equivalence). -/
theorem exact_equality_check_vs_fuzzy_divergence_witness :
    (checkCorpusExists (Config.mk "p" "l") "foo" []
      (.listing [⟨some "x", some "foo"⟩])).result = true :=
  (exact_equality_check_vs_fuzzy_divergence.1 (Config.mk "p" "l") "foo" []
    [⟨some "x", some "foo"⟩] (by decide) (by decide)).mpr (by decide)
